import Mathlib

/-!
# Steel Browser Orchestrator — verification of the worker-pool scheduler

Shallow embedding of the Go orchestrator (worker lifecycle, worker pool,
session manager, HTTP handler policies) with theorems settling the frozen
claims about its specification.

Each lock-protected critical section of the Go code is modelled as one
atomic state transformation; goroutine interleavings become sequences of
such atomic steps.  Machine integers that cannot overflow in practice
(counts bounded by `max`, timestamps) are modelled as `Nat`.
-/

namespace Steel

/-! ## Worker (worker.go)

`WorkerState` mirrors the Go constants `WorkerStateStarting … WorkerStateDead`.
The Go `Worker` struct additionally carries the port, binary path, `cmd`
handle and the pool back-reference; only the fields the claims inspect
(`ID`, `state`, `sessionID`) are kept.  Note: the struct has NO draining
flag — this matters for the shutdown claims.
-/

inductive WorkerState where
  | starting
  | available
  | busy
  | unhealthy
  | dead
  deriving DecidableEq, Repr

structure Worker where
  id : Nat
  state : WorkerState
  sessionID : String
  deriving DecidableEq, Repr

/-- Go `NewWorker` — a fresh worker starts in state `Dead` with no session. -/
def newWorker (id : Nat) : Worker :=
  { id := id, state := .dead, sessionID := "" }

/-- Go `Worker.SetSessionID` — sets the session id, marks the worker Busy when
the id is non-empty and Available when it is empty; the returned flag
records whether `pool.Release(w)` is triggered (the code releases exactly
when the id is empty and the pool back-reference is set, which it always is
for pool-created workers). -/
def setSessionID (w : Worker) (id : String) : Worker × Bool :=
  ({ w with sessionID := id,
            state := if id = "" then .available else .busy },
   id = "")

/-- Result of one turn of the `monitor` goroutine observing a child-process
exit: the updated worker, the `OnCrash` invocation (at most one, carrying
the session id captured in the same critical section that set the state to
Dead), and whether the monitor then attempts `Start` again. -/
structure MonitorResult where
  worker : Worker
  crashCallback : Option String
  restartAttempted : Bool
  deriving DecidableEq, Repr

/-- Go `Worker.monitor` after `cmd.Wait()` returns: under the worker lock it
snapshots `sessionID`, sets the state to Dead and clears the session; it
then invokes `OnCrash(prevSession)` iff the snapshot was non-empty, sleeps
1 s, and unconditionally calls `w.Start()` — the `Worker` struct has no
draining flag, so nothing suppresses the restart. -/
def monitorExit (w : Worker) : MonitorResult :=
  let prevSession := w.sessionID
  { worker := { w with state := .dead, sessionID := "" },
    crashCallback := if prevSession ≠ "" then some prevSession else none,
    restartAttempted := true }

/-- Go `Worker.Start` — succeeds only from `Dead` or `Unhealthy`; on success
the state becomes `Starting`, the session id is cleared and the monitor and
readiness-probe goroutines are launched.  A spawn error leaves the worker
unchanged. -/
def startWorker (w : Worker) : Option Worker :=
  if w.state = .dead ∨ w.state = .unhealthy then
    some { w with state := .starting, sessionID := "" }
  else
    none

/-! ## Pool `available` channel (pool.go)

`available` is a buffered channel of capacity `max`, modelled as a FIFO
list of worker ids. -/

/-- Go `Pool.Release` — a non-blocking send on `available`: when the channel
already holds `max` entries the send is skipped, otherwise the worker id is
enqueued (whether or not it is already present). -/
def release (max : Nat) (avail : List Nat) (w : Nat) : List Nat :=
  if avail.length < max then avail ++ [w] else avail

/-! ## SessionManager (session.go)

The Go `map[string]*SessionEntry` is modelled as an association list with
unique keys maintained by the operations; `LastAccessed` timestamps and
`now` are `Nat` seconds (the code uses `time.Time` and
`sessionTTL = 60 * time.Second`; only the 60-second comparison matters). -/

structure SessionEntry where
  sessionID : String
  workerId : Nat
  lastAccessed : Nat
  deriving DecidableEq, Repr

/-- Constant `sessionTTL` (60 seconds). -/
def sessionTTL : Nat := 60

/-- Go `SessionManager.Add` — insert a fresh entry with `LastAccessed = now`
(overwriting any entry under the same key, as a Go map assignment does). -/
def smAdd (now : Nat) (m : List SessionEntry) (id : String) (wid : Nat) :
    List SessionEntry :=
  ⟨id, wid, now⟩ :: m.filter (fun e => e.sessionID ≠ id)

/-- Go `SessionManager.Get` — look the id up; if absent return `none` and
leave the map untouched; otherwise refresh that entry's `LastAccessed`
to `now` in the same critical section and return its worker. -/
def smGet (now : Nat) (m : List SessionEntry) (id : String) :
    Option Nat × List SessionEntry :=
  match m.find? (fun e => e.sessionID = id) with
  | none => (none, m)
  | some e =>
      (some e.workerId,
       m.map (fun e' => if e'.sessionID = id then { e' with lastAccessed := now } else e'))

/-- Go `SessionManager.Remove` — delete the entry for the id (if any) and
return its worker. -/
def smRemove (m : List SessionEntry) (id : String) :
    Option Nat × List SessionEntry :=
  match m.find? (fun e => e.sessionID = id) with
  | none => (none, m)
  | some e => (some e.workerId, m.filter (fun e' => e'.sessionID ≠ id))

/-- An entry is stale when `time.Since(LastAccessed) > sessionTTL`, i.e.
strictly more than 60 seconds have elapsed. -/
def isStale (now : Nat) (e : SessionEntry) : Bool :=
  decide (sessionTTL < now - e.lastAccessed)

/-- Phase 1 of `SessionManager.expireStale` (under the mapping lock):
delete every stale entry from the map and collect the deleted entries. -/
def expireStale (now : Nat) (m : List SessionEntry) :
    List SessionEntry × List SessionEntry :=
  (m.filter (fun e => ¬ isStale now e), m.filter (isStale now))

/-- Phase 2 of `expireStale` (outside the lock): for each expired entry in
order, forward `DELETE /sessions/<id>` to the owning worker and clear that
worker's session id via `SetSessionID("")`.  Returns the forwarded
(workerId, sessionID) pairs and the updated worker set. -/
def applyExpiry (ws : List Worker) (expired : List SessionEntry) :
    List (Nat × String) × List Worker :=
  (expired.map (fun e => (e.workerId, e.sessionID)),
   expired.foldl
     (fun acc e =>
       acc.map (fun w => if w.id = e.workerId then (setSessionID w "").1 else w))
     ws)

/-! ## Pool scale-up / scale-down state machine (pool.go)

One pool mutex covers `workers`, `nextID` and `pendingAdds`; each
lock-protected region of `NewPool`, `addWorker`, `removeIdleWorker` and
`Shutdown` is one atomic step.  `addWorker`'s slow work (port allocation,
process spawn) happens between its first critical section (the reservation)
and its second (append or abort), so those sections are separate steps;
the `0 < pendingAdds` hypotheses on the later steps hold because each is
executed exactly once by a goroutine that performed the reservation. -/

structure PoolSt where
  workers : List Nat
  pendingAdds : Nat
  nextID : Nat
  deriving DecidableEq, Repr

/-- Go `NewPool(min, max, …)` — starts `min` workers (ids `0 … min-1`),
`nextID = min`, `pendingAdds = 0`. -/
def poolInit (min : Nat) : PoolSt :=
  { workers := List.range min, pendingAdds := 0, nextID := min }

/-- Atomic pool transitions.

* `reserve` — `addWorker`'s first critical section: under the lock it
  checks `len(workers) + pendingAdds < max`, takes an id from `nextID` and
  increments `pendingAdds` before releasing the lock.
* `abortAdd` — `addWorker` after `findFreePort` or `w.Start()` failed:
  under the lock, `pendingAdds--` and the worker is discarded.
* `completeAdd` — `addWorker` after a successful start: under the lock the
  worker is appended and `pendingAdds--`.
* `removeIdle` — `removeIdleWorker` popped worker `w` from `available`:
  under the lock it is removed from the slice (then drained and killed).
* `shutdown` — `Shutdown` drains and kills every worker but does not
  change `workers`, `pendingAdds` or `nextID`.
-/
inductive PoolStep (max : Nat) : PoolSt → PoolSt → Prop where
  | reserve (s : PoolSt) (h : s.workers.length + s.pendingAdds < max) :
      PoolStep max s ⟨s.workers, s.pendingAdds + 1, s.nextID + 1⟩
  | abortAdd (s : PoolSt) (h : 0 < s.pendingAdds) :
      PoolStep max s ⟨s.workers, s.pendingAdds - 1, s.nextID⟩
  | completeAdd (s : PoolSt) (w : Nat) (h : 0 < s.pendingAdds) :
      PoolStep max s ⟨s.workers ++ [w], s.pendingAdds - 1, s.nextID⟩
  | removeIdle (s : PoolSt) (w : Nat) :
      PoolStep max s ⟨s.workers.erase w, s.pendingAdds, s.nextID⟩
  | shutdown (s : PoolSt) :
      PoolStep max s s

/-- Pool states reachable from `NewPool(min, max, …)`. -/
inductive PoolReach (min max : Nat) : PoolSt → Prop where
  | init : PoolReach min max (poolInit min)
  | step {s s' : PoolSt} : PoolReach min max s → PoolStep max s s' →
      PoolReach min max s'

/-! ## `available` channel dynamics (for the Release-idempotence claim)

The channel contents evolve by `Release` sends and `Acquire`/
`removeIdleWorker` receives.  `NewPool` creates the channel empty; workers
enter it only through `Release` (from `waitForReady` or
`SetSessionID("")`). -/

inductive AvailStep (max : Nat) : List Nat → List Nat → Prop where
  | releaseStep (avail : List Nat) (w : Nat) :
      AvailStep max avail (release max avail w)
  | acquireStep (w : Nat) (rest : List Nat) :
      AvailStep max (w :: rest) rest

/-- Channel contents reachable from the empty channel `NewPool` creates. -/
inductive AvailReach (max : Nat) : List Nat → Prop where
  | init : AvailReach max []
  | step {s s' : List Nat} : AvailReach max s → AvailStep max s s' →
      AvailReach max s'

/-! ## Worker lifecycle transition system (worker.go)

Per-worker state plus a flag recording whether a `waitForReady` goroutine
is outstanding (it is launched by `Start` and terminates when it either
observes HTTP 200 or exhausts its 30 probes).  Each lock-protected region
of worker.go is one atomic labelled step. -/

structure WorkerSys where
  worker : Worker
  probing : Bool
  deriving DecidableEq, Repr

inductive WorkerOp where
  | startOp
  | readySuccess
  | readyFailure
  | setSessionOp (id : String)
  | exitObserved
  deriving DecidableEq, Repr

/-- Labelled atomic transitions of one worker.

* `startStep` — `Start()`: allowed only from Dead/Unhealthy; sets
  `Starting`, clears the session and launches monitor + readiness probe.
* `readyOk` — `waitForReady` observed HTTP 200: under the lock, the state
  becomes Available only if it is still `Starting`; the probe ends (and
  `pool.Release(w)` is then called unconditionally).
* `readyFail` — all 30 probes failed: under the lock the state is set to
  `Unhealthy` unconditionally; the session id is NOT touched.
* `setSession` — `SetSessionID(id)` (callers: the create handler on an
  acquired worker, the delete handler and the TTL sweeper with `id = ""`).
* `exitStep` — the monitor's critical section after `cmd.Wait()` returns:
  state Dead, session cleared (the `OnCrash` invocation and restart are the
  separate `monitorExit` analysis above).
-/
inductive WorkerStep : WorkerOp → WorkerSys → WorkerSys → Prop where
  | startStep (s : WorkerSys)
      (h : s.worker.state = .dead ∨ s.worker.state = .unhealthy) :
      WorkerStep .startOp s
        ⟨{ s.worker with state := .starting, sessionID := "" }, true⟩
  | readyOk (s : WorkerSys) (h : s.probing = true) :
      WorkerStep .readySuccess s
        ⟨if s.worker.state = .starting
            then { s.worker with state := .available }
            else s.worker,
         false⟩
  | readyFail (s : WorkerSys) (h : s.probing = true) :
      WorkerStep .readyFailure s
        ⟨{ s.worker with state := .unhealthy }, false⟩
  | setSession (s : WorkerSys) (id : String) :
      WorkerStep (.setSessionOp id) s ⟨(setSessionID s.worker id).1, s.probing⟩
  | exitStep (s : WorkerSys) :
      WorkerStep .exitObserved s
        ⟨{ s.worker with state := .dead, sessionID := "" }, s.probing⟩

/-- Worker states reachable from `NewWorker` (Dead, no session, no probe). -/
inductive WorkerReach (id : Nat) : WorkerSys → Prop where
  | init : WorkerReach id ⟨newWorker id, false⟩
  | step {s s' : WorkerSys} {op : WorkerOp} :
      WorkerReach id s → WorkerStep op s s' → WorkerReach id s'

/-- The spec invariant `Busy ⇔ session_id ≠ ""`. -/
def busyIffSession (w : Worker) : Prop :=
  w.state = .busy ↔ w.sessionID ≠ ""

/-! ## HTTP handler policies (main.go, proxy.go)

The forwarder returns either a transport-level failure or the worker's
HTTP response; handler control flow is a pure function of those
outcomes. -/

/-- Outcome of one forward call as the handler sees it. -/
inductive ForwardResult where
  | failure
  | success (status : Nat)
  deriving DecidableEq, Repr

/-- Result of `handleDeleteSession`: the remaining session map, the HTTP
status written to the client, and the worker (if any) whose session id the
handler cleared via `SetSessionID("")`. -/
structure DeleteResult where
  sessions : List SessionEntry
  status : Nat
  clearedWorker : Option Nat
  deriving DecidableEq, Repr

/-- Go `handleDeleteSession` — `Remove` the mapping first; 404 if it was
absent; otherwise forward the delete and clear the worker's session on
both the failure path (writing 204) and the success path (writing the
worker's status code). -/
def handleDeleteSession (m : List SessionEntry) (id : String)
    (fwd : ForwardResult) : DeleteResult :=
  match smRemove m id with
  | (none, m') => { sessions := m', status := 404, clearedWorker := none }
  | (some wid, m') =>
      match fwd with
      | .failure => { sessions := m', status := 204, clearedWorker := some wid }
      | .success st => { sessions := m', status := st, clearedWorker := some wid }

/-- Environment of one `handleCreateSession` loop iteration: `Acquire`
timed out, the forward transport-failed, the forward returned an
unparseable body, or it returned a body whose parsed `id` registers the
session. -/
inductive AttemptOutcome where
  | acquireTimeout
  | forwardFail
  | parseFail
  | ok (status : Nat) (sessionId : String)
  deriving DecidableEq, Repr

/-- Result of `handleCreateSession`: HTTP status written, number of
workers killed (one per failed forward/parse), the registered session id
(if any), and the number of `Acquire` calls made. -/
structure CreateResult where
  status : Nat
  kills : Nat
  registered : Option String
  acquires : Nat
  deriving DecidableEq, Repr

/-- Constant `maxCreateRetries` in main.go. -/
def maxCreateRetries : Nat := 3

/-- The retry loop of `handleCreateSession`, recursing on the remaining
attempts (`fuel`); `attempt` indexes into the outcome environment and
`kills` accumulates the `worker.Kill()` calls issued so far.  With the
fuel exhausted the handler reports 502 Bad Gateway; an `Acquire` timeout
reports 503 Service Unavailable without consuming a worker. -/
def createLoop (env : Nat → AttemptOutcome) :
    Nat → Nat → Nat → CreateResult
  | 0, attempt, kills =>
      { status := 502, kills := kills, registered := none, acquires := attempt }
  | fuel + 1, attempt, kills =>
      match env attempt with
      | .acquireTimeout =>
          { status := 503, kills := kills, registered := none,
            acquires := attempt + 1 }
      | .forwardFail => createLoop env fuel (attempt + 1) (kills + 1)
      | .parseFail => createLoop env fuel (attempt + 1) (kills + 1)
      | .ok st sid =>
          { status := st, kills := kills, registered := some sid,
            acquires := attempt + 1 }

/-- Go `handleCreateSession` given the outcome of each successive attempt. -/
def handleCreateSession (env : Nat → AttemptOutcome) : CreateResult :=
  createLoop env maxCreateRetries 0 0

/-- An attempt that kills the acquired worker and retries. -/
def isFailedAttempt : AttemptOutcome → Bool
  | .forwardFail => true
  | .parseFail => true
  | _ => false

/-! ## Theorems -/

/-- C1: for every pool created with bounds `min ≤ max` (`1 ≤ min`), after
any sequence of `addWorker`, `removeIdleWorker`, `NewPool` and `Shutdown`
critical sections, `len(workers) + pendingAdds` never exceeds `max`:
`addWorker` checks the bound and reserves a `pendingAdds` slot under the
pool lock before its slow work, and decrements the counter on each failure
or completion path, so the bound is inductive over all reachable pool
states. -/
theorem pool_no_overshoot (min max : Nat) (s : PoolSt)
    (_hmin : 1 ≤ min) (hmax : min ≤ max) (hr : PoolReach min max s) :
    s.workers.length + s.pendingAdds ≤ max := by
  induction hr with
  | init => simpa [poolInit] using hmax
  | @step t t' _ hstep ih =>
      cases hstep with
      | reserve h => simpa using h
      | abortAdd h => simp only []; omega
      | completeAdd w h =>
          simp only [List.length_append, List.length_cons, List.length_nil]
          omega
      | removeIdle w =>
          have hle := List.length_erase_le w t.workers
          simp only [] at *
          omega
      | shutdown => exact ih

/-- Witness for C1: the bound holds at a concrete reachable state of a
pool with `min = 1`, `max = 2` after one reserve and one completed add. -/
theorem pool_no_overshoot_witness :
    1 ≤ 1 ∧ 1 ≤ 2 ∧
      PoolReach 1 2 ⟨[0, 1], 0, 2⟩ ∧
      ([0, 1] : List Nat).length + 0 ≤ 2 := by
  have h1 : PoolStep 2 (poolInit 1) ⟨[0], 1, 2⟩ :=
    PoolStep.reserve (poolInit 1) (by simp [poolInit])
  have h2 : PoolStep 2 ⟨[0], 1, 2⟩ ⟨[0, 1], 0, 2⟩ :=
    PoolStep.completeAdd ⟨[0], 1, 2⟩ 1 (by simp)
  have hr : PoolReach 1 2 ⟨[0, 1], 0, 2⟩ :=
    PoolReach.step (PoolReach.step PoolReach.init h1) h2
  exact ⟨le_refl 1, by omega, hr,
    pool_no_overshoot 1 2 ⟨[0, 1], 0, 2⟩ (le_refl 1) (by omega) hr⟩

/-- C2 counterexample: `Release` is only skipped when the channel is FULL,
not when the worker is already enqueued.  With `max = 2`, the channel
state `[0]` (worker 0 already enqueued) is reachable, and a second
`Release(0)` from there appends a duplicate: worker 0 then appears twice
in `available`, refuting "w appears in available at most once". -/
theorem release_duplicates_cex :
    AvailReach 2 [0] ∧ (0 : Nat) ∈ ([0] : List Nat) ∧
      release 2 [0] 0 = [0, 0] ∧ AvailReach 2 [0, 0] ∧
      ¬ List.count 0 (release 2 [0] 0) ≤ 1 := by
  have h1 : release 2 ([] : List Nat) 0 = [0] := by simp [release]
  have h2 : release 2 [0] 0 = [0, 0] := by simp [release]
  have r1 : AvailReach 2 [0] := by
    have := AvailReach.step (AvailReach.init : AvailReach 2 [])
      (AvailStep.releaseStep [] 0)
    rwa [h1] at this
  have r2 : AvailReach 2 [0, 0] := by
    have := AvailReach.step r1 (AvailStep.releaseStep [0] 0)
    rwa [h2] at this
  refine ⟨r1, by simp, h2, r2, ?_⟩
  rw [h2]
  simp [List.count_cons]

/-- C2 (amended): `Release` is a non-blocking conditional enqueue on a
channel of capacity `max`: when the channel already holds `max` entries
the send is skipped (so repeated `Release` of a worker is a no-op exactly
then, and the channel never grows beyond `max`), and when there is spare
capacity the worker is appended even if it is already enqueued. -/
theorem release_non_blocking (max : Nat) (avail : List Nat) (w : Nat)
    (hcap : avail.length ≤ max) :
    (release max avail w).length ≤ max ∧
      (avail.length = max → release max avail w = avail) ∧
      (avail.length < max → release max avail w = avail ++ [w]) := by
  unfold release
  refine ⟨?_, ?_, ?_⟩
  · split
    · simp only [List.length_append, List.length_cons, List.length_nil]
      omega
    · exact hcap
  · intro hfull
    split
    · omega
    · rfl
  · intro hlt
    split
    · rfl
    · omega

/-- Witness for C2's amended theorem at a full channel (`max = 1`) and at
a channel with spare room. -/
theorem release_non_blocking_witness :
    (([5] : List Nat).length ≤ 1 ∧
        (release 1 [5] 7).length ≤ 1 ∧ release 1 [5] 7 = [5]) ∧
      release 2 [5] 7 = [5, 7] := by
  have h1 := release_non_blocking 1 [5] 7 (by simp)
  have h2 := release_non_blocking 2 [5] 7 (by simp)
  exact ⟨⟨by simp, h1.1, h1.2.1 (by simp)⟩, h2.2.2 (by simp)⟩

/-- C3: the spec requires that a drained worker's monitor never calls
`Start` after observing the child exit, but the `Worker` struct in
worker.go has no draining flag and no `Drain` method at all (even though
pool.go's `Shutdown` and `removeIdleWorker` call `w.Drain()` and document
that draining suppresses the restart): `monitor` unconditionally sleeps
1 s and calls `w.Start()` again, for every worker, drained or not. -/
theorem monitor_always_restarts (w : Worker) :
    (monitorExit w).restartAttempted = true := rfl

/-- C4 counterexample: the delete handler writes 204 unconditionally only
on the forward-FAILURE path; when the forward succeeds it echoes the
worker's HTTP status.  With session "a" present and the worker answering
the forwarded DELETE with 404, the handler responds 404, not 204. -/
theorem delete_echoes_worker_status_cex :
    (handleDeleteSession [⟨"a", 0, 0⟩] "a" (.success 404)).status = 404 ∧
      (handleDeleteSession [⟨"a", 0, 0⟩] "a" (.success 404)).status ≠ 204 := by
  constructor <;> decide

/-- C4 (amended): the delete handler removes the mapping first and clears
the worker's session on every path where the id was present; it responds
204 when the forward transport-fails, echoes the worker's HTTP status
(204 or 404) when the forward succeeds, and responds 404 leaving the map
unchanged when the id is absent. -/
theorem handleDelete_spec (m : List SessionEntry) (id : String)
    (fwd : ForwardResult) :
    (m.find? (fun e => e.sessionID = id) = none →
        handleDeleteSession m id fwd = ⟨m, 404, none⟩) ∧
      (∀ e, m.find? (fun e' => e'.sessionID = id) = some e →
        handleDeleteSession m id fwd =
          ⟨m.filter (fun e' => e'.sessionID ≠ id),
           (match fwd with | .failure => 204 | .success st => st),
           some e.workerId⟩) := by
  constructor
  · intro habs
    simp [handleDeleteSession, smRemove, habs]
  · intro e hfind
    cases fwd <;> simp [handleDeleteSession, smRemove, hfind]

/-- Witness for C4's amended theorem: concrete present and absent ids. -/
theorem handleDelete_spec_witness :
    handleDeleteSession [⟨"a", 1, 5⟩] "a" .failure =
        ⟨[], 204, some 1⟩ ∧
      handleDeleteSession [⟨"a", 1, 5⟩] "zzz" (.success 204) =
        ⟨[⟨"a", 1, 5⟩], 404, none⟩ := by
  constructor
  · have h := (handleDelete_spec [⟨"a", 1, 5⟩] "a" .failure).2 ⟨"a", 1, 5⟩
      (by decide)
    simpa using h
  · have h := (handleDelete_spec [⟨"a", 1, 5⟩] "zzz" (.success 204)).1
      (by decide)
    simpa using h

/-- Helper for C5: the attempts that kill and retry are exactly the
transport failures and the parse failures. -/
theorem isFailedAttempt_iff (x : AttemptOutcome) :
    isFailedAttempt x = true ↔ x = .forwardFail ∨ x = .parseFail := by
  cases x <;> simp [isFailedAttempt]

/-- Helper for C5: the loop makes at most `attempt + fuel` acquires. -/
theorem createLoop_acquires_le (env : Nat → AttemptOutcome) :
    ∀ fuel attempt kills,
      (createLoop env fuel attempt kills).acquires ≤ attempt + fuel := by
  intro fuel
  induction fuel with
  | zero => intro attempt kills; simp [createLoop]
  | succ n ih =>
      intro attempt kills
      simp only [createLoop]
      cases env attempt with
      | acquireTimeout => simp
      | forwardFail =>
          have := ih (attempt + 1) (kills + 1)
          simpa [Nat.add_assoc, Nat.add_comm, Nat.add_left_comm] using this
      | parseFail =>
          have := ih (attempt + 1) (kills + 1)
          simpa [Nat.add_assoc, Nat.add_comm, Nat.add_left_comm] using this
      | ok st sid => simp

/-- C5: `handleCreateSession` makes at most 3 acquire-and-forward attempts
in total; each forward failure or response-parse failure kills the
acquired worker and retries with a newly acquired one; after 3 failed
attempts it responds 502 Bad Gateway with 3 workers killed; when `Acquire`
times out it responds 503 Service Unavailable without registering a
session or killing a worker (no worker was consumed); a successful attempt
registers the parsed session id and echoes the worker's status. -/
theorem create_retry_policy (env : Nat → AttemptOutcome) :
    (handleCreateSession env).acquires ≤ 3 ∧
      (isFailedAttempt (env 0) = true → isFailedAttempt (env 1) = true →
        isFailedAttempt (env 2) = true →
        handleCreateSession env = ⟨502, 3, none, 3⟩) ∧
      (env 0 = .acquireTimeout → handleCreateSession env = ⟨503, 0, none, 1⟩) ∧
      (∀ st sid, env 0 = .ok st sid →
        handleCreateSession env = ⟨st, 0, some sid, 1⟩) ∧
      (isFailedAttempt (env 0) = true → env 1 = .acquireTimeout →
        handleCreateSession env = ⟨503, 1, none, 2⟩) ∧
      (∀ st sid, isFailedAttempt (env 0) = true →
        isFailedAttempt (env 1) = true → env 2 = .ok st sid →
        handleCreateSession env = ⟨st, 2, some sid, 3⟩) := by
  refine ⟨?_, ?_, ?_, ?_, ?_, ?_⟩
  · simpa using createLoop_acquires_le env 3 0 0
  · intro h0 h1 h2
    rcases (isFailedAttempt_iff _).1 h0 with e0 | e0 <;>
      rcases (isFailedAttempt_iff _).1 h1 with e1 | e1 <;>
      rcases (isFailedAttempt_iff _).1 h2 with e2 | e2 <;>
      simp [handleCreateSession, maxCreateRetries, createLoop, e0, e1, e2]
  · intro h0
    simp [handleCreateSession, maxCreateRetries, createLoop, h0]
  · intro st sid h0
    simp [handleCreateSession, maxCreateRetries, createLoop, h0]
  · intro h0 h1
    rcases (isFailedAttempt_iff _).1 h0 with e0 | e0 <;>
      simp [handleCreateSession, maxCreateRetries, createLoop, e0, h1]
  · intro st sid h0 h1 h2
    rcases (isFailedAttempt_iff _).1 h0 with e0 | e0 <;>
      rcases (isFailedAttempt_iff _).1 h1 with e1 | e1 <;>
      simp [handleCreateSession, maxCreateRetries, createLoop, e0, e1, h2]

/-- Witness for C5: three forward failures yield 502 with 3 kills; an
immediate acquire timeout yields 503 with no kill and no registration. -/
theorem create_retry_policy_witness :
    handleCreateSession (fun _ => .forwardFail) = ⟨502, 3, none, 3⟩ ∧
      handleCreateSession (fun _ => .acquireTimeout) = ⟨503, 0, none, 1⟩ :=
  ⟨(create_retry_policy (fun _ => .forwardFail)).2.1 rfl rfl rfl,
   (create_retry_policy (fun _ => .acquireTimeout)).2.2.1 rfl⟩

/-- C6: when the monitor observes the child exit it atomically (in one
critical section) sets the state to Dead and clears the session id, then
invokes `OnCrash` at most once, exactly when the session id held at the
moment of exit was non-empty, passing exactly that id. -/
theorem monitor_crash_callback (w : Worker) :
    (monitorExit w).worker.state = .dead ∧
      (monitorExit w).worker.sessionID = "" ∧
      (monitorExit w).worker.id = w.id ∧
      (w.sessionID ≠ "" → (monitorExit w).crashCallback = some w.sessionID) ∧
      (w.sessionID = "" → (monitorExit w).crashCallback = none) ∧
      (∀ s, (monitorExit w).crashCallback = some s →
        s = w.sessionID ∧ s ≠ "") := by
  refine ⟨rfl, rfl, rfl, ?_, ?_, ?_⟩
  · intro h
    simp [monitorExit, h]
  · intro h
    simp [monitorExit, h]
  · intro s hs
    by_cases h : w.sessionID = ""
    · simp [monitorExit, h] at hs
    · simp [monitorExit, h] at hs
      exact ⟨hs.symm, hs ▸ h⟩

/-- Witness for C6: a worker crashing while holding session "s" fires the
callback with "s"; one crashing idle fires nothing. -/
theorem monitor_crash_callback_witness :
    (monitorExit ⟨3, .busy, "s"⟩).crashCallback = some "s" ∧
      (monitorExit ⟨4, .available, ""⟩).crashCallback = none :=
  ⟨(monitor_crash_callback ⟨3, .busy, "s"⟩).2.2.2.1 (by decide),
   (monitor_crash_callback ⟨4, .available, ""⟩).2.2.2.2.1 rfl⟩

/-- Helper for C7: phase 2's sequential per-entry worker update equals a
single pass that clears exactly the workers owning an expired entry. -/
theorem applyExpiry_workers (expired : List SessionEntry) (ws : List Worker) :
    (applyExpiry ws expired).2 =
      ws.map (fun w =>
        if expired.any (fun e => e.workerId = w.id)
          then (setSessionID w "").1 else w) := by
  induction expired generalizing ws with
  | nil => simp [applyExpiry]
  | cons e rest ih =>
      have step :
          (applyExpiry ws (e :: rest)).2 =
            (applyExpiry
              (ws.map (fun w =>
                if w.id = e.workerId then (setSessionID w "").1 else w))
              rest).2 := by
        simp [applyExpiry]
      rw [step, ih, List.map_map]
      apply List.map_congr_left
      intro w _
      by_cases hw : w.id = e.workerId
      · simp [Function.comp, List.any_cons, setSessionID, hw]
      · have hw' : ¬ e.workerId = w.id := fun h => hw h.symm
        simp [Function.comp, List.any_cons, setSessionID, hw, hw']

/-- C7: one sweep tick removes from the mapping exactly the entries whose
`last_accessed` lies strictly more than 60 seconds in the past (an entry
at exactly 60 s is kept) and leaves every other entry unchanged; for each
removed entry it then, outside the lock, forwards `DELETE /sessions/<id>`
to the owning worker and clears that worker's session id (marking it
Available), leaving all other workers untouched. -/
theorem expireStale_spec (now : Nat) (m : List SessionEntry)
    (ws : List Worker) :
    (∀ e, e ∈ (expireStale now m).1 ↔ e ∈ m ∧ now - e.lastAccessed ≤ 60) ∧
      (∀ e, e ∈ (expireStale now m).2 ↔ e ∈ m ∧ 60 < now - e.lastAccessed) ∧
      ((applyExpiry ws (expireStale now m).2).1 =
        (expireStale now m).2.map (fun e => (e.workerId, e.sessionID))) ∧
      ((applyExpiry ws (expireStale now m).2).2 =
        ws.map (fun w =>
          if (expireStale now m).2.any (fun e => e.workerId = w.id)
            then { w with state := .available, sessionID := "" } else w)) := by
  refine ⟨?_, ?_, rfl, ?_⟩
  · intro e
    simp [expireStale, isStale, sessionTTL, List.mem_filter]
  · intro e
    simp [expireStale, isStale, sessionTTL, List.mem_filter]
  · rw [applyExpiry_workers]
    apply List.map_congr_left
    intro w _
    by_cases hw : (expireStale now m).2.any (fun e => e.workerId = w.id) <;>
      simp [hw, setSessionID]

/-- Witness for C7: with `now = 100`, an entry last accessed at 30
(70 s ago) is evicted and its worker cleared, while an entry last accessed
at 40 (exactly 60 s ago) is kept and its worker untouched. -/
theorem expireStale_spec_witness :
    (⟨"b", 2, 40⟩ : SessionEntry) ∈
        (expireStale 100 [⟨"a", 1, 30⟩, ⟨"b", 2, 40⟩]).1 ∧
      (⟨"a", 1, 30⟩ : SessionEntry) ∈
        (expireStale 100 [⟨"a", 1, 30⟩, ⟨"b", 2, 40⟩]).2 ∧
      (applyExpiry [⟨1, .busy, "a"⟩, ⟨2, .busy, "b"⟩]
          (expireStale 100 [⟨"a", 1, 30⟩, ⟨"b", 2, 40⟩]).2).2 =
        [⟨1, .available, ""⟩, ⟨2, .busy, "b"⟩] := by
  have h := expireStale_spec 100 [⟨"a", 1, 30⟩, ⟨"b", 2, 40⟩]
    [⟨1, .busy, "a"⟩, ⟨2, .busy, "b"⟩]
  refine ⟨(h.1 ⟨"b", 2, 40⟩).2 ⟨by decide, by decide⟩,
    (h.2.1 ⟨"a", 1, 30⟩).2 ⟨by decide, by decide⟩, ?_⟩
  rw [h.2.2.2]
  decide

/-- C8 counterexample: `waitForReady`'s failure path sets the state to
Unhealthy WITHOUT clearing `sessionID`, so the invariant
`Busy ⇔ session_id ≠ ""` is not maintained over all reachable states.
Reachable trace: `Start` (Dead → Starting, probe launched); the worker —
still sitting stale in `available` after a crash-restart — is acquired and
a create forwarded to it succeeds, so `SetSessionID("s")` makes it Busy;
the 30 health probes then all fail and `waitForReady` marks it Unhealthy,
leaving `sessionID = "s"` on a non-Busy worker. -/
theorem busy_iff_session_cex :
    WorkerReach 0 ⟨⟨0, .unhealthy, "s"⟩, false⟩ ∧
      ¬ busyIffSession ⟨0, .unhealthy, "s"⟩ := by
  constructor
  · have r0 : WorkerReach 0 ⟨⟨0, .dead, ""⟩, false⟩ := WorkerReach.init
    have r1 : WorkerReach 0 ⟨⟨0, .starting, ""⟩, true⟩ :=
      WorkerReach.step r0
        (WorkerStep.startStep ⟨⟨0, .dead, ""⟩, false⟩ (Or.inl rfl))
    have r2 : WorkerReach 0 ⟨⟨0, .busy, "s"⟩, true⟩ :=
      WorkerReach.step r1
        (WorkerStep.setSession ⟨⟨0, .starting, ""⟩, true⟩ "s")
    exact WorkerReach.step r2
      (WorkerStep.readyFail ⟨⟨0, .busy, "s"⟩, true⟩ rfl)
  · simp [busyIffSession]

/-- C8 (amended): the invariant `Busy ⇔ session_id ≠ ""` holds initially
and is preserved by every worker operation except the readiness-probe
failure path — `SetSessionID` sets Busy exactly for a non-empty id,
`Start` and the monitor clear the session whenever they set a non-Busy
state, and the probe's success path touches no session — while the probe's
failure path (`waitForReady` marking Unhealthy) preserves it only when the
worker holds no session at that moment. -/
theorem busy_iff_session_preserved (n : Nat) (op : WorkerOp)
    (s s' : WorkerSys) :
    busyIffSession (newWorker n) ∧
      (WorkerStep op s s' → busyIffSession s.worker →
        (op = .readyFailure → s.worker.sessionID = "") →
        busyIffSession s'.worker) := by
  constructor
  · simp [busyIffSession, newWorker]
  · intro hstep hinv hguard
    cases hstep with
    | startStep _ h => simp [busyIffSession]
    | readyOk _ h =>
        by_cases hst : s.worker.state = WorkerState.starting
        · have hsess : s.worker.sessionID = "" := by
            by_contra hne
            have : s.worker.state = .busy := hinv.mpr hne
            rw [hst] at this
            cases this
          simp [busyIffSession, hst, hsess]
        · simpa [busyIffSession, hst] using hinv
    | readyFail _ h =>
        have hsess : s.worker.sessionID = "" := hguard rfl
        simp [busyIffSession, hsess]
    | setSession _ id =>
        by_cases hid : id = "" <;> simp [busyIffSession, setSessionID, hid]
    | exitStep _ => simp [busyIffSession]

/-- Witness for C8's amended theorem: the monitor's exit step on a Busy
worker holding "x" restores the invariant (Dead with no session). -/
theorem busy_iff_session_preserved_witness :
    busyIffSession (newWorker 0) ∧ busyIffSession ⟨0, .dead, ""⟩ :=
  ⟨(busy_iff_session_preserved 0 .exitObserved
      ⟨⟨0, .busy, "x"⟩, false⟩ ⟨⟨0, .dead, ""⟩, false⟩).1,
   (busy_iff_session_preserved 0 .exitObserved
      ⟨⟨0, .busy, "x"⟩, false⟩ ⟨⟨0, .dead, ""⟩, false⟩).2
     (WorkerStep.exitStep ⟨⟨0, .busy, "x"⟩, false⟩)
     (by simp [busyIffSession])
     (by intro h; cases h)⟩

/-- C9: `SessionManager.Get` returns `nil` exactly when no entry with the
given id exists, leaving the mapping untouched in that case; otherwise it
returns the owning worker and, in the same critical section, refreshes
exactly that entry's `last_accessed` to `now`, leaving every other entry
unchanged. -/
theorem smGet_spec (now : Nat) (m : List SessionEntry) (id : String) :
    ((smGet now m id).1 = none ↔ ∀ e ∈ m, e.sessionID ≠ id) ∧
      ((∀ e ∈ m, e.sessionID ≠ id) → smGet now m id = (none, m)) ∧
      (∀ e, m.find? (fun e' => e'.sessionID = id) = some e →
        (smGet now m id).1 = some e.workerId ∧
          { e with lastAccessed := now } ∈ (smGet now m id).2) ∧
      (∀ e' ∈ m, e'.sessionID ≠ id → e' ∈ (smGet now m id).2) ∧
      (∀ e', e' ∈ (smGet now m id).2 →
        e' ∈ m ∨ ∃ e ∈ m, e.sessionID = id ∧
          e' = { e with lastAccessed := now }) := by
  refine ⟨?_, ?_, ?_, ?_, ?_⟩
  · cases hf : m.find? (fun e' => e'.sessionID = id) with
    | none =>
        simp only [smGet, hf]
        simpa using List.find?_eq_none.mp hf
    | some e =>
        simp only [smGet, hf]
        have he := List.find?_some hf
        have hmem := List.mem_of_find?_eq_some hf
        simp only [decide_eq_true_eq] at he
        constructor
        · intro h; cases h
        · intro hall
          exact absurd he (hall e hmem)
  · intro hall
    have hf : m.find? (fun e' => e'.sessionID = id) = none :=
      List.find?_eq_none.mpr (by simpa using hall)
    simp [smGet, hf]
  · intro e hf
    have he := List.find?_some hf
    have hmem := List.mem_of_find?_eq_some hf
    simp only [decide_eq_true_eq] at he
    refine ⟨by simp [smGet, hf], ?_⟩
    simp only [smGet, hf]
    exact List.mem_map.mpr ⟨e, hmem, by simp [he]⟩
  · intro e' hmem hne
    cases hf : m.find? (fun e'' => e''.sessionID = id) with
    | none => simpa [smGet, hf] using hmem
    | some e =>
        simp only [smGet, hf]
        exact List.mem_map.mpr ⟨e', hmem, by simp [hne]⟩
  · intro e' hmem
    cases hf : m.find? (fun e'' => e''.sessionID = id) with
    | none =>
        simp only [smGet, hf] at hmem
        exact Or.inl hmem
    | some e =>
        simp only [smGet, hf] at hmem
        rcases List.mem_map.mp hmem with ⟨e0, he0, heq⟩
        by_cases h0 : e0.sessionID = id
        · rw [if_pos h0] at heq
          exact Or.inr ⟨e0, he0, h0, heq.symm⟩
        · rw [if_neg h0] at heq
          exact Or.inl (heq ▸ he0)

/-- Witness for C9: a present id refreshes only its own entry; an absent
id changes nothing. -/
theorem smGet_spec_witness :
    (smGet 9 [⟨"a", 1, 5⟩, ⟨"b", 2, 6⟩] "a").1 = some 1 ∧
      (⟨"a", 1, 9⟩ : SessionEntry) ∈ (smGet 9 [⟨"a", 1, 5⟩, ⟨"b", 2, 6⟩] "a").2 ∧
      (⟨"b", 2, 6⟩ : SessionEntry) ∈ (smGet 9 [⟨"a", 1, 5⟩, ⟨"b", 2, 6⟩] "a").2 ∧
      smGet 9 [⟨"a", 1, 5⟩, ⟨"b", 2, 6⟩] "zzz" =
        (none, [⟨"a", 1, 5⟩, ⟨"b", 2, 6⟩]) := by
  have h := smGet_spec 9 [⟨"a", 1, 5⟩, ⟨"b", 2, 6⟩] "a"
  have hfind : ([⟨"a", 1, 5⟩, ⟨"b", 2, 6⟩] : List SessionEntry).find?
      (fun e' => e'.sessionID = "a") = some ⟨"a", 1, 5⟩ := by decide
  have hp := h.2.2.1 ⟨"a", 1, 5⟩ hfind
  refine ⟨hp.1, hp.2, ?_, ?_⟩
  · exact h.2.2.2.1 ⟨"b", 2, 6⟩ (by decide) (by decide)
  · exact (smGet_spec 9 [⟨"a", 1, 5⟩, ⟨"b", 2, 6⟩] "zzz").2.1
      (by decide)

/-- C10: `SetSessionID("")` on a worker in ANY state — Dead and Unhealthy
included — unconditionally sets the state to Available, clears the session
id, and triggers `pool.Release`; when the `available` channel has spare
capacity the release enqueues the worker. -/
theorem setSessionID_clear_releases (w : Worker) (max : Nat)
    (avail : List Nat) :
    (setSessionID w "").1.state = .available ∧
      (setSessionID w "").1.sessionID = "" ∧
      (setSessionID w "").1.id = w.id ∧
      (setSessionID w "").2 = true ∧
      (avail.length < max → release max avail w.id = avail ++ [w.id]) := by
  refine ⟨rfl, rfl, rfl, by simp [setSessionID], ?_⟩
  intro h
  simp [release, h]

/-- Witness for C10: clearing the session of a Dead worker marks it
Available and pushes it into a channel with room. -/
theorem setSessionID_clear_releases_witness :
    (setSessionID ⟨7, .dead, "x"⟩ "").1.state = .available ∧
      release 2 [5] 7 = [5, 7] :=
  ⟨(setSessionID_clear_releases ⟨7, .dead, "x"⟩ 2 [5]).1,
   (setSessionID_clear_releases ⟨7, .dead, "x"⟩ 2 [5]).2.2.2.2 (by simp)⟩

end Steel
